import Mathlib

/-!
Verification development for the UnBind contract-analysis pipeline
(`src/services/analysisService.ts`, the Groq-based service imported by
`App.tsx`; the repository also holds a second copy of the same module that
differs only in prompt wording, and a legacy Gemini service that is not
imported).  Strings are modelled as `List Char`, JS numbers used as indices
as `Int`, and the external collaborators (chat completion, embeddings,
`JSON.parse`) as oracle parameters, following the spec's §6 contracts.
A thrown/rejected promise is modelled as `Except.error`.
-/

namespace UnBind

/-- Document text and all other JS strings are modelled as lists of characters. -/
abbrev Str := List Char

/-- The backtick character (used by the Markdown code fences that
`tryParseJson` strips). -/
def backtick : Char := Char.ofNat 96

/-- Whitespace recognised by JS `String.prototype.trim` (ASCII part). -/
def isJSWhitespace (c : Char) : Bool :=
  c = ' ' || c = '\t' || c = '\n' || c = '\r' || c = '\x0b' || c = '\x0c'

/-- JS `String.prototype.trim`: removes leading and trailing whitespace. -/
def trimJS (s : Str) : Str :=
  ((s.dropWhile isJSWhitespace).reverse.dropWhile isJSWhitespace).reverse

/-- The regex replacement `.replace(/^```(json)?/i, "")` from `tryParseJson`:
removes one leading fence, greedily together with a case-insensitive `json`
tag when present. -/
def stripLeadingFence (s : Str) : Str :=
  if s.take 3 = [backtick, backtick, backtick] then
    let r := s.drop 3
    if (r.take 4).map Char.toLower = ['j', 's', 'o', 'n'] then r.drop 4 else r
  else s

/-- The regex replacement `.replace(/```$/i, "")` from `tryParseJson`:
removes one trailing fence. -/
def stripTrailingFence (s : Str) : Str :=
  if s.reverse.take 3 = [backtick, backtick, backtick] then
    (s.reverse.drop 3).reverse
  else s

/-- The cleaning pipeline inside `tryParseJson`:
`text.trim().replace(/^```(json)?/i, "").replace(/```$/i, "").trim()`. -/
def cleanModelOutput (s : Str) : Str :=
  trimJS (stripTrailingFence (stripLeadingFence (trimJS s)))

/-- `tryParseJson<T>` from `analysisService`.  The ambient JS `JSON.parse`
(an external builtin) is passed in as `parse`; its `try/catch` wrapper is
modelled by `parse` returning `none` instead of throwing.  The function is
total: it never throws, and malformed output surfaces as `none`. -/
def tryParseJson {T : Type} (parse : Str → Option T) (text : Str) : Option T :=
  parse (trimJS (stripTrailingFence (stripLeadingFence (trimJS text))))

/-- JS `String.prototype.substring(a, b)`: both arguments are clamped to
`[0, length]` and swapped when out of order; the result is the character
range `[lo, hi)`. -/
def substringJS (t : Str) (a b : Int) : Str :=
  let len : Int := t.length
  let a' := max 0 (min a len)
  let b' := max 0 (min b len)
  (t.take (max a' b').toNat).drop (min a' b').toNat

/-- Fuel-indexed embedding of the loop in `chunkText`
(`for (let i = 0; i < text.length; i += chunkSize - overlap)`), with the JS
loop counter as an `Int` so that a non-positive step (`overlap ≥ chunkSize`)
is represented faithfully.  `none` means the fuel ran out before the loop
terminated; a result of `none` for every fuel is non-termination. -/
def chunkLoop (text : Str) (chunkSize overlap : Int) : Int → Nat → Option (List Str)
  | _, 0 => none
  | i, fuel + 1 =>
    if i < (text.length : Int) then
      (chunkLoop text chunkSize overlap (i + (chunkSize - overlap)) fuel).map
        (fun rest => substringJS text i (i + chunkSize) :: rest)
    else
      some []

/-- `chunkText` from `analysisService` (call sites pass the JS defaults
`chunkSize = 4000`, `overlap = 400` explicitly, and `1500, 200` for
retrieval).  Fuel `text.length + 2` is sufficient whenever
`overlap < chunkSize` (see `chunkLoop_isSome_of_lt`). -/
def chunkText (text : Str) (chunkSize overlap : Int) : Option (List Str) :=
  if (text.length : Int) ≤ chunkSize then some [text]
  else chunkLoop text chunkSize overlap 0 (text.length + 2)

/-- Concatenation of the non-overlapping prefixes of a chunk sequence: the
first `k` characters of every chunk except the last, the last chunk in
full. -/
def joinChunkPrefixes (k : Nat) : List Str → Str
  | [] => []
  | [c] => c
  | c :: rest => c.take k ++ joinChunkPrefixes k rest

/-- The `RiskLevel` enum from `types.ts`. -/
inductive RiskLevel where
  | Low
  | Medium
  | High
  | Negligible
deriving DecidableEq

/-- String rendering of a `RiskLevel` (the enum values are their names). -/
def riskLevelStr : RiskLevel → Str
  | .Low => ("Low").data
  | .Medium => ("Medium").data
  | .High => ("High").data
  | .Negligible => ("Negligible").data

/-- The `ClauseAnalysis` interface from `types.ts`. -/
structure ClauseAnalysis where
  clauseText : Str
  simplifiedExplanation : Str
  riskLevel : RiskLevel
  riskReason : Str
  negotiationSuggestion : Str
  suggestedRewrite : Option Str
deriving DecidableEq

/-- The `KeyTerm` interface from `types.ts`. -/
structure KeyTerm where
  term : Str
  definition : Str
deriving DecidableEq

/-- The `KeyDate` interface from `types.ts`. -/
structure KeyDate where
  date : Str
  description : Str
deriving DecidableEq

/-- The `MissingClause` interface from `types.ts`. -/
structure MissingClause where
  clauseName : Str
  reason : Str
deriving DecidableEq

/-- The `AnalysisResponse` interface from `types.ts` (the optional
`chunkSummaries` field is never set by `analyzeContract` and is omitted). -/
structure AnalysisResponse where
  summary : Str
  clauses : List ClauseAnalysis
  keyTerms : List KeyTerm
  keyDates : List KeyDate
  missingClauses : List MissingClause
deriving DecidableEq

/-- Message roles used by the chat-completion calls. -/
inductive MsgRole where
  | system
  | user
deriving DecidableEq

/-- One role-tagged chat message. -/
structure Msg where
  role : MsgRole
  content : Str
deriving DecidableEq

/-- One call to the external chat-completion service (spec §6: messages, a
model identifier and a sampling temperature; `none` when the call site
leaves the `groqService` default in place). -/
structure ChatRequest where
  messages : List Msg
  model : Option Str
  temperature : Option ℚ

/-- The JSON shape `{ clauses: ClauseAnalysis[] }` the Extractor requires. -/
structure ClausesMsg where
  clauses : List ClauseAnalysis
deriving DecidableEq

/-- The JSON shape the Synthesizer requires. -/
structure ReportMsg where
  summary : Str
  keyTerms : List KeyTerm
  keyDates : List KeyDate
  missingClauses : List MissingClause
deriving DecidableEq

/-- The external collaborators of the core (spec §6), modelled as oracles:
the chat-completion service and the embedding service (where
`Except.error` models a thrown/rejected call), and the ambient `JSON.parse`
specialised to the two JSON shapes the service expects (returning `none`
models the `try/catch` around `JSON.parse`). -/
structure Env where
  chat : ChatRequest → Except Str Str
  embed : List Str → Except Str (List (List ℝ))
  parseClauses : Str → Option ClausesMsg
  parseReport : Str → Option ReportMsg

/-- The role preamble interpolated into the Extractor's user message. -/
def extractorRoleInstruction (role : Str) : Str :=
  ("The user\x27s role is: ").data ++ role ++
    (". Analyze all clauses from their perspective.").data

/-- The Extractor's system prompt (verbatim from `analyzeChunk`). -/
def extractorSystemText : Str :=
  ("You help people with below-average literacy. Extract only meaningful legal clauses from a text chunk.\n- Be conservative: if a clause is standard/neutral, set riskLevel to \"Negligible\".\n- Only assign Low/Medium/High when there is a clear harm or imbalance for the user.\n- Use simple words at about a 6th-grade level. Keep it short.\n- simplifiedExplanation: 1–2 short sentences in plain language. If helpful, add one tiny example starting with \"Example:\".\n- riskReason (Potential Risk): 1–2 short sentences saying what could go wrong. If helpful, add one tiny example starting with \"Example:\".\n- negotiationSuggestion: 1 short sentence suggesting a safer tweak (or say it is fair).\n- suggestedRewrite: a safer, balanced rewrite of clauseText. Keep original meaning where possible. Short and clear.\nReturn JSON only with a clauses array of objects: \x7b clauseText, simplifiedExplanation, riskLevel in [Low, Medium, High, Negligible], riskReason, negotiationSuggestion, suggestedRewrite \x7d.").data

/-- The Extractor's user message for one chunk. -/
def extractorUserText (chunk role : Str) : Str :=
  extractorRoleInstruction role ++ ("\n\nTEXT:\n").data ++ chunk ++
    ("\n\nReturn only valid JSON.").data

/-- The chat request issued by `analyzeChunk` for one chunk (model and
temperature left at the `groqService` defaults). -/
def extractorRequest (chunk role : Str) : ChatRequest :=
  ⟨[⟨.system, extractorSystemText⟩, ⟨.user, extractorUserText chunk role⟩], none, none⟩

/-- `analyzeChunk` from `analysisService`: one Extractor call.  There is no
`try/catch` here — a thrown chat call propagates; only a response that fails
`tryParseJson` degrades to the empty clause list (`parsed?.clauses || []`). -/
def analyzeChunk (env : Env) (chunk role : Str) : Except Str (List ClauseAnalysis) := do
  let output ← env.chat (extractorRequest chunk role)
  match tryParseJson env.parseClauses output with
  | some parsed => pure parsed.clauses
  | none => pure []

/-- The role preamble interpolated into the Synthesizer's user message. -/
def synthRoleInstruction (role : Str) : Str :=
  ("The user\x27s role is: ").data ++ role ++
    (". Generate the summary and extract terms/dates from their perspective.").data

/-- One serialized clause record inside the Synthesizer's prompt
(`Clause ${i + 1}: ...`). -/
def clauseRecord (i : Nat) (c : ClauseAnalysis) : Str :=
  ("Clause ").data ++ (Nat.repr (i + 1)).data ++ (":\n- Text: \"").data ++
    c.clauseText ++ ("\"\n- Explanation: \"").data ++ c.simplifiedExplanation ++
    ("\"\n- Risk: ").data ++ riskLevelStr c.riskLevel ++ ("\n").data

/-- The serialized clause context (`clauses.map(...).join("\n")`). -/
def clauseContext (clauses : List ClauseAnalysis) : Str :=
  List.intercalate (("\n").data) (clauses.enum.map (fun p => clauseRecord p.1 p.2))

/-- The Synthesizer's system prompt (verbatim from `synthesizeReport`). -/
def synthSystemText : Str :=
  ("You help laypeople. Use simple, short sentences. Avoid jargon.\n- summary: max 4 short sentences in plain language.\n- keyTerms: definition in 1 simple sentence each.\n- keyDates: description in 1 short sentence each.\n- missingClauses: reason in 1 short sentence.\nReturn JSON only with: summary (string), keyTerms (array of \x7bterm, definition\x7d), keyDates (array of \x7bdate, description\x7d), missingClauses (array of \x7bclauseName, reason\x7d).").data

/-- The chat request issued by `synthesizeReport`. -/
def synthRequest (clauses : List ClauseAnalysis) (role : Str) : ChatRequest :=
  ⟨[⟨.system, synthSystemText⟩,
    ⟨.user, synthRoleInstruction role ++ ("\n\nANALYZED CLAUSES:\n").data ++
      clauseContext clauses ++ ("\n\nReturn only valid JSON.").data⟩], none, none⟩

/-- Error message thrown by `synthesizeReport` on unparseable output. -/
def synthesisFailedMsg : Str := ("Failed to parse synthesis JSON").data

/-- `synthesizeReport` from `analysisService`: a parse failure here is a hard
error (`throw new Error("Failed to parse synthesis JSON")`). -/
def synthesizeReport (env : Env) (clauses : List ClauseAnalysis) (role : Str) :
    Except Str ReportMsg := do
  let output ← env.chat (synthRequest clauses role)
  match tryParseJson env.parseReport output with
  | some parsed => pure parsed
  | none => Except.error synthesisFailedMsg

/-- Error message thrown by `analyzeContract` when no clauses were found. -/
def noClausesMsg : Str :=
  ("No legal clauses were identified in the document. It might be too short or in an unsupported format.").data

/-- Placeholder error for the unreachable case that the chunking loop runs
out of fuel; `analyzeContract` and `simulateImpact` only call `chunkText`
with `overlap < chunkSize`, for which `chunkText` always returns `some`
(see `chunkText_isSome_of_lt`). -/
def chunkingDivergedMsg : Str := ("unreachable: chunking diverged").data

/-- `analyzeContract` from `analysisService`.  `Promise.all` over the chunk
list is modelled by `List.mapM`, which gathers results positionally (chunk
order), exactly as `Promise.all` does; the `onProgress` notifications are
observability only and are omitted. -/
def analyzeContract (env : Env) (documentText role : Str) :
    Except Str AnalysisResponse :=
  match chunkText documentText 4000 400 with
  | none => Except.error chunkingDivergedMsg
  | some chunks => do
    let chunkResults ← chunks.mapM (fun chunk => analyzeChunk env chunk role)
    let allClauses := chunkResults.flatten
    if allClauses.length = 0 then
      Except.error noClausesMsg
    else do
      let finalReport ← synthesizeReport env allClauses role
      pure ⟨finalReport.summary, allClauses, finalReport.keyTerms,
        finalReport.keyDates, finalReport.missingClauses⟩

/-- `cosineSimilarity` from `analysisService`.  The accumulation loop runs
`i` over `[0, a.length)` reading `a[i]` and `b[i]`; JS floats are modelled
as real numbers (an out-of-range `b[i]`, which would be `NaN` in JS, is
modelled as `0`; all theorems assume equal lengths).  `Math.sqrt(na) *
Math.sqrt(nb) || 1` floors a zero denominator to `1`. -/
noncomputable def cosineSimilarity (a b : List ℝ) : ℝ :=
  let dot := ∑ i ∈ Finset.range a.length, a.getD i 0 * b.getD i 0
  let na := ∑ i ∈ Finset.range a.length, a.getD i 0 * a.getD i 0
  let nb := ∑ i ∈ Finset.range a.length, b.getD i 0 * b.getD i 0
  let denom := if Real.sqrt na * Real.sqrt nb = 0 then 1 else Real.sqrt na * Real.sqrt nb
  dot / denom

/-- One scored chunk (`{ idx, score }`) built during retrieval. -/
structure Scored where
  idx : Nat
  score : ℝ

/-- `vectorRetrieveRelevantChunks` from `analysisService`: embeds
`[...chunks, query]` in one batched call, scores every chunk against the
query by cosine similarity, sorts descending (JS stable `sort` with
comparator `(a, b) => b.score - a.score`, modelled by the stable
`mergeSort`), keeps the top `topK`, and falls back to the original chunk
list on a thrown embedding call, on a vector-count mismatch, or on an empty
selection.  It never throws. -/
noncomputable def vectorRetrieveRelevantChunks (env : Env) (chunks : List Str)
    (query : Str) (topK : Nat) : List Str :=
  match env.embed (chunks ++ [query]) with
  | .error _ => chunks
  | .ok vectors =>
    if vectors.length ≠ (chunks ++ [query]).length then chunks
    else
      let queryVec := vectors.getD (vectors.length - 1) []
      let chunkVecs := vectors.take (vectors.length - 1)
      let scored := chunkVecs.enum.map
        (fun p => Scored.mk p.1 (cosineSimilarity p.2 queryVec))
      let sorted := scored.mergeSort (fun x y => decide (y.score ≤ x.score))
      let selected := (sorted.take (min topK sorted.length)).map
        (fun s => chunks.getD s.idx [])
      if selected.length > 0 then selected else chunks

/-- Fast-path message for an empty/whitespace-only scenario. -/
def enterScenarioMsg : Str := ("Please enter a scenario to simulate.").data

/-- Message returned when retrieval yields no chunks at all. -/
def noInfoMsg : Str :=
  ("Could not find any information in the document relevant to your scenario. Please try rephrasing your question or check if the topic is covered in the contract.").data

/-- The separator used to join retrieved chunks into the Answerer context. -/
def contextSeparator : Str := ("\n\n---\n\n").data

/-- The Answerer's system prompt (verbatim from `simulateImpact`). -/
def answererSystemText : Str :=
  ("You help people with below-average literacy. Answer simply in plain words. Use up to 5 bullet points, each 1–2 short sentences, no jargon. If helpful, include 1 tiny example starting with \"Example:\".").data

/-- The model identifier passed by `simulateImpact`. -/
def answererModel : Str := ("llama-3.3-70b-versatile").data

/-- The chat request issued by the Answerer inside `simulateImpact`. -/
def answererRequest (scenario context : Str) : ChatRequest :=
  ⟨[⟨.system, answererSystemText⟩,
    ⟨.user, ("Scenario: ").data ++ scenario ++ ("\n\nContract Excerpts:\n").data ++
      context ++ ("\n\nWrite the answer in very simple words. Keep it under 300 words.").data⟩],
   some answererModel, some (2 / 10 : ℚ)⟩

/-- `simulateImpact` from `analysisService`: guard an empty scenario, chunk
with the retrieval parameters `(1500, 200)`, retrieve, return `noInfoMsg`
when retrieval yields no chunks, otherwise call the Answerer.  A thrown
Answerer call propagates (`Except.error`). -/
noncomputable def simulateImpact (env : Env) (documentText scenario : Str) :
    Except Str Str :=
  if trimJS scenario = [] then Except.ok enterScenarioMsg
  else
    match chunkText documentText 1500 200 with
    | none => Except.error chunkingDivergedMsg
    | some chunks =>
      let relevantChunks := vectorRetrieveRelevantChunks env chunks scenario 6
      if relevantChunks.length = 0 then Except.ok noInfoMsg
      else
        env.chat (answererRequest scenario (List.intercalate contextSeparator relevantChunks))

/-- Adjacent chunks agree on their shared region: the latter chunk's first
`O` characters equal the former chunk minus its first `S - O` characters,
and the shared region has length exactly `O` whenever the former chunk has
full length `S`. -/
abbrev OverlapRegionAgrees (S O : Nat) (cs : List Str) : Prop :=
  List.Chain' (fun c d => c.drop (S - O) = d.take O ∧
    (c.length = S → (d.take O).length = O)) cs

/-- Every chunk in the list has length at most `S`. -/
abbrev ChunkLengthsLe (S : Nat) (cs : List Str) : Prop :=
  ∀ c ∈ cs, c.length ≤ S

/-- The spec's wording for the chunk-length invariant: every chunk except
the last has length exactly `S` (only the last may be shorter). -/
abbrev OnlyLastShorter (S : Nat) (cs : List Str) : Prop :=
  ∀ c ∈ cs.dropLast, c.length = S

/-- The spec's wording for the overlap invariant: each pair of consecutive
chunks overlaps by exactly `O` characters (the former's last `O` characters
are the latter's first `O` characters, and that region has length `O`). -/
abbrev OverlapsExactly (O : Nat) (cs : List Str) : Prop :=
  List.Chain' (fun c d => c.drop (c.length - O) = d.take O ∧
    (d.take O).length = O) cs

/-- Concrete ten-character text used in witnesses and counterexamples. -/
def sampleText10 : Str := ("abcdefghij").data

/-- Concrete clause used by the happy-path environment. -/
def sampleClause : ClauseAnalysis :=
  ⟨("c").data, ("e").data, RiskLevel.Low, ("r").data, ("n").data, none⟩

/-- Concrete synthesis report used by the happy-path environment. -/
def sampleReport : ReportMsg := ⟨("s").data, [], [], []⟩

/-- Environment whose chat and embedding calls both throw. -/
def envChatErr : Env :=
  ⟨fun _ => Except.error (("boom").data), fun _ => Except.error (("down").data),
   fun _ => none, fun _ => none⟩

/-- Environment whose chat call succeeds but whose output fails to parse. -/
def envParseNone : Env :=
  ⟨fun _ => Except.ok (("junk").data), fun _ => Except.error (("down").data),
   fun _ => none, fun _ => none⟩

/-- Environment whose embedding call returns a wrong-length vector list. -/
def envEmbedMismatch : Env :=
  ⟨fun _ => Except.error (("boom").data), fun _ => Except.ok [],
   fun _ => none, fun _ => none⟩

/-- Environment where every call succeeds and parses. -/
def envHappy : Env :=
  ⟨fun _ => Except.ok (("out").data), fun _ => Except.error (("down").data),
   fun _ => some ⟨[sampleClause]⟩, fun _ => some sampleReport⟩

/-- Environment whose chat call returns a fixed answer and whose embedding
call throws (so retrieval falls back to the full chunk list). -/
def envAnswer : Env :=
  ⟨fun _ => Except.ok (("A").data), fun _ => Except.error (("down").data),
   fun _ => none, fun _ => none⟩

/-- A JSON parser that rejects every input. -/
def parseNone : Str → Option Nat := fun _ => none

/-- On in-range natural arguments, `substringJS` is take-then-drop. -/
theorem substringJS_nat (t : Str) (a b : Nat) (h : a ≤ b) :
    substringJS t (a : Int) (b : Int) = (t.take b).drop a := by
  simp only [substringJS]
  have h1 : max 0 (min (a : Int) (t.length : Int)) = ((min a t.length : Nat) : Int) := by
    push_cast; omega
  have h2 : max 0 (min (b : Int) (t.length : Int)) = ((min b t.length : Nat) : Int) := by
    push_cast; omega
  rw [h1, h2]
  have h3 : min ((min a t.length : Nat) : Int) ((min b t.length : Nat) : Int)
      = ((min a t.length : Nat) : Int) := by push_cast; omega
  have h4 : max ((min a t.length : Nat) : Int) ((min b t.length : Nat) : Int)
      = ((min b t.length : Nat) : Int) := by push_cast; omega
  rw [h3, h4, Int.toNat_natCast, Int.toNat_natCast]
  have h5 : t.take (min b t.length) = t.take b := by
    rw [List.take_eq_take]; omega
  rw [h5]
  rcases le_or_lt a t.length with ha | ha
  · rw [min_eq_left ha]
  · rw [min_eq_right (le_of_lt ha)]
    rw [List.drop_eq_nil_of_le, List.drop_eq_nil_of_le]
    · simp only [List.length_take]; omega
    · simp only [List.length_take]; omega

/-- Unfolding of one loop iteration when the guard holds. -/
theorem chunkLoop_step (t : Str) (S O i : Int) (fuel : Nat)
    (h : i < (t.length : Int)) (hf : 0 < fuel) :
    chunkLoop t S O i fuel =
      (chunkLoop t S O (i + (S - O)) (fuel - 1)).map
        (fun rest => substringJS t i (i + S) :: rest) := by
  obtain ⟨f, rfl⟩ : ∃ f, fuel = f + 1 := ⟨fuel - 1, by omega⟩
  simp only [chunkLoop, if_pos h, Nat.add_sub_cancel]

/-- Unfolding of the loop when the guard fails. -/
theorem chunkLoop_done (t : Str) (S O i : Int) (fuel : Nat)
    (h : ¬ i < (t.length : Int)) (hf : 0 < fuel) :
    chunkLoop t S O i fuel = some [] := by
  obtain ⟨f, rfl⟩ : ∃ f, fuel = f + 1 := ⟨fuel - 1, by omega⟩
  simp only [chunkLoop, if_neg h]

/-- When the step is positive, the loop terminates once the fuel exceeds the
remaining distance. -/
theorem chunkLoop_isSome_of_lt (t : Str) (S O : Int) (h : O < S) :
    ∀ fuel (i : Int), ((t.length : Int) - i).toNat < fuel →
      (chunkLoop t S O i fuel).isSome = true := by
  intro fuel
  induction fuel with
  | zero => intro i hi; omega
  | succ f ih =>
    intro i hi
    by_cases hc : i < (t.length : Int)
    · rw [chunkLoop_step t S O i (f + 1) hc (by omega), Nat.add_sub_cancel]
      have hrec := ih (i + (S - O)) (by omega)
      cases hx : chunkLoop t S O (i + (S - O)) f with
      | none => rw [hx] at hrec; simp at hrec
      | some cs => rfl
    · rw [chunkLoop_done t S O i (f + 1) hc (by omega)]
      rfl

/-- With `overlap < chunkSize`, `chunkText` always returns a result. -/
theorem chunkText_isSome_of_lt (t : Str) (S O : Int) (h : O < S) :
    (chunkText t S O).isSome = true := by
  unfold chunkText
  split
  · rfl
  · exact chunkLoop_isSome_of_lt t S O h (t.length + 2) 0 (by omega)

/-- With a non-positive step and a non-empty text, the loop index never
advances past zero, so no amount of fuel finishes the loop. -/
theorem chunkLoop_none_of_nonpos (t : Str) (S O : Int) (hSO : S ≤ O)
    (hlen : 0 < t.length) :
    ∀ fuel (i : Int), i ≤ 0 → chunkLoop t S O i fuel = none := by
  intro fuel
  induction fuel with
  | zero => intro i _; rfl
  | succ f ih =>
    intro i hi
    have hc : i < (t.length : Int) := by
      have h0 : (0 : Int) < (t.length : Int) := by exact_mod_cast hlen
      omega
    rw [chunkLoop_step t S O i (f + 1) hc (by omega), Nat.add_sub_cancel,
      ih (i + (S - O)) (by omega)]
    rfl

/-- Unfolding of `joinChunkPrefixes` on a list with at least two elements. -/
theorem joinChunkPrefixes_cons (k : Nat) (c : Str) (cs : List Str) (h : cs ≠ []) :
    joinChunkPrefixes k (c :: cs) = c.take k ++ joinChunkPrefixes k cs := by
  cases cs with
  | nil => exact absurd rfl h
  | cons d ds => rfl

/-- Splitting a drop at an intermediate index. -/
theorem drop_split (t : Str) (i j : Nat) (hij : i ≤ j) (hj : j ≤ t.length) :
    (t.take j).drop i ++ t.drop j = t.drop i := by
  conv_rhs => rw [← List.take_append_drop j t]
  rw [List.drop_append_of_le_length]
  simp only [List.length_take]
  omega

/-- The chunk starting at offset `i` in take-drop normal form. -/
theorem substringJS_chunk (t : Str) (i S : Nat) :
    substringJS t (i : Int) ((i : Int) + (S : Int)) = (t.take (i + S)).drop i := by
  have h : (i : Int) + (S : Int) = ((i + S : Nat) : Int) := by push_cast; ring
  rw [h]
  exact substringJS_nat t i (i + S) (by omega)

/-- Coverage invariant of the loop: starting at offset `i`, the produced
chunks are non-empty and their non-overlapping prefixes concatenate to the
rest of the text. -/
theorem chunkLoop_coverage (t : Str) (S O : Nat) (hOS : O < S) :
    ∀ fuel (i : Nat), i < t.length → t.length - i < fuel →
      ∃ cs, chunkLoop t (S : Int) (O : Int) (i : Int) fuel = some cs ∧ cs ≠ [] ∧
        joinChunkPrefixes (S - O) cs = t.drop i := by
  intro fuel
  induction fuel with
  | zero => intro i h1 h2; omega
  | succ f ih =>
    intro i h1 h2
    have hc : (i : Int) < (t.length : Int) := by exact_mod_cast h1
    have hstep : (i : Int) + ((S : Int) - (O : Int)) = ((i + (S - O) : Nat) : Int) := by
      omega
    rw [chunkLoop_step t S O i (f + 1) hc (by omega), Nat.add_sub_cancel, hstep]
    by_cases h3 : i + (S - O) < t.length
    · obtain ⟨cs, hcs, hne, hjoin⟩ := ih (i + (S - O)) h3 (by omega)
      rw [hcs]
      refine ⟨substringJS t i ((i : Int) + S) :: cs, rfl, by simp, ?_⟩
      rw [joinChunkPrefixes_cons _ _ _ hne, hjoin, substringJS_chunk t i S,
        List.take_drop, List.take_take]
      have h4 : (i + (S - O)) ⊓ (i + S) = i + (S - O) := by omega
      rw [h4]
      exact drop_split t i (i + (S - O)) (by omega) (by omega)
    · have hnot : ¬ ((i + (S - O) : Nat) : Int) < (t.length : Int) := by
        exact_mod_cast h3
      rw [chunkLoop_done t (S : Int) (O : Int) _ f hnot (by omega)]
      refine ⟨[substringJS t i ((i : Int) + S)], rfl, by simp, ?_⟩
      show substringJS t (i : Int) ((i : Int) + (S : Int)) = t.drop i
      rw [substringJS_chunk t i S, List.take_of_length_le (by omega)]

/-- Adjacency invariant of the loop: chunks agree on their shared regions
and never exceed the window size. -/
theorem chunkLoop_chain (t : Str) (S O : Nat) (hOS : O < S) :
    ∀ fuel (i : Nat), i < t.length → t.length - i < fuel →
      ∃ cs, chunkLoop t (S : Int) (O : Int) (i : Int) fuel = some cs ∧
        cs.head? = some ((t.take (i + S)).drop i) ∧
        (∀ c ∈ cs, c.length ≤ S) ∧
        List.Chain' (fun c d => c.drop (S - O) = d.take O ∧
          (c.length = S → (d.take O).length = O)) cs := by
  intro fuel
  induction fuel with
  | zero => intro i h1 h2; omega
  | succ f ih =>
    intro i h1 h2
    have hc : (i : Int) < (t.length : Int) := by exact_mod_cast h1
    have hstep : (i : Int) + ((S : Int) - (O : Int)) = ((i + (S - O) : Nat) : Int) := by
      omega
    rw [chunkLoop_step t S O i (f + 1) hc (by omega), Nat.add_sub_cancel, hstep]
    by_cases h3 : i + (S - O) < t.length
    · obtain ⟨cs, hcs, hhead, hlens, hchain⟩ := ih (i + (S - O)) h3 (by omega)
      rw [hcs]
      refine ⟨substringJS t i ((i : Int) + S) :: cs, rfl, ?_, ?_, ?_⟩
      · rw [List.head?_cons, substringJS_chunk t i S]
      · intro c hcmem
        rcases List.mem_cons.mp hcmem with rfl | hc2
        · rw [substringJS_chunk t i S]
          simp only [List.length_drop, List.length_take]
          omega
        · exact hlens c hc2
      · rw [List.chain'_cons']
        refine ⟨?_, hchain⟩
        intro d hd
        rw [hhead, Option.mem_some_iff] at hd
        subst hd
        rw [substringJS_chunk t i S]
        constructor
        · rw [List.drop_drop, List.take_drop, List.take_take]
          have h5 : (i + (S - O) + O) ⊓ (i + (S - O) + S) = i + S := by omega
          rw [h5]
        · intro hfull
          simp only [List.length_drop, List.length_take] at hfull
          simp only [List.length_take, List.length_drop]
          omega
    · have hnot : ¬ ((i + (S - O) : Nat) : Int) < (t.length : Int) := by
        exact_mod_cast h3
      rw [chunkLoop_done t (S : Int) (O : Int) _ f hnot (by omega)]
      refine ⟨[substringJS t i ((i : Int) + S)], rfl, ?_, ?_, List.chain'_singleton _⟩
      · rw [List.head?_cons, substringJS_chunk t i S]
      · intro c hcmem
        rw [List.mem_singleton] at hcmem
        subst hcmem
        rw [substringJS_chunk t i S]
        simp only [List.length_drop, List.length_take]
        omega

/-- On non-negative integer arguments, `substringJS` is take-then-drop. -/
theorem substringJS_int (t : Str) (a b : Int) (h0 : 0 ≤ a) (hab : a ≤ b) :
    substringJS t a b = (t.take b.toNat).drop a.toNat := by
  have ha : ((a.toNat : Nat) : Int) = a := Int.toNat_of_nonneg h0
  have hb : ((b.toNat : Nat) : Int) = b := Int.toNat_of_nonneg (le_trans h0 hab)
  rw [← ha, ← hb, substringJS_nat t a.toNat b.toNat (by omega)]
  simp only [Int.toNat_natCast]

/-- The three chunks produced for a 9000-character text with the default
extraction parameters. -/
theorem chunkText_9000 (u : Str) (h : u.length = 9000) :
    chunkText u 4000 400 = some [u.take 4000, (u.take 7600).drop 3600, u.drop 7200] := by
  unfold chunkText
  rw [h]
  rw [if_neg (by norm_num)]
  rw [chunkLoop_step u 4000 400 0 9002 (by rw [h]; norm_num) (by norm_num)]
  norm_num
  rw [chunkLoop_step u 4000 400 3600 9001 (by rw [h]; norm_num) (by norm_num)]
  norm_num
  rw [chunkLoop_step u 4000 400 7200 9000 (by rw [h]; norm_num) (by norm_num)]
  norm_num
  rw [chunkLoop_done u 4000 400 10800 8999 (by rw [h]; norm_num) (by norm_num)]
  rw [substringJS_int u 0 4000 (by norm_num) (by norm_num),
    substringJS_int u 3600 7600 (by norm_num) (by norm_num),
    substringJS_int u 7200 11200 (by norm_num) (by norm_num)]
  have e0 : Int.toNat 0 = 0 := rfl
  have e1 : Int.toNat 4000 = 4000 := rfl
  have e2 : Int.toNat 3600 = 3600 := rfl
  have e3 : Int.toNat 7600 = 7600 := rfl
  have e4 : Int.toNat 7200 = 7200 := rfl
  have e5 : Int.toNat 11200 = 11200 := rfl
  rw [e0, e1, e2, e3, e4, e5, List.drop_zero,
    (List.take_of_length_le (by omega) : List.take 11200 u = u)]
  exact ⟨⟨⟨rfl, rfl⟩, rfl⟩, rfl⟩

/-- With a non-negative window size, `chunkText` never produces an empty
chunk list. -/
theorem chunkText_ne_nil (t : Str) (S O : Int) (hS : 0 ≤ S) (cs : List Str)
    (hcs : chunkText t S O = some cs) : cs ≠ [] := by
  unfold chunkText at hcs
  by_cases h : (t.length : Int) ≤ S
  · rw [if_pos h] at hcs
    cases hcs
    simp
  · rw [if_neg h] at hcs
    rw [chunkLoop_step t S O 0 (t.length + 2) (by omega) (by omega)] at hcs
    cases hx : chunkLoop t S O (0 + (S - O)) (t.length + 2 - 1) with
    | none => rw [hx] at hcs; simp at hcs
    | some rest =>
      rw [hx, Option.map_some'] at hcs
      injection hcs with h2
      rw [← h2]
      simp

/-- Retrieval never turns a non-empty chunk list into an empty one: every
branch returns either the original list or a selection checked non-empty. -/
theorem vectorRetrieve_ne_nil (env : Env) (chunks : List Str) (query : Str)
    (topK : Nat) (h : chunks ≠ []) :
    vectorRetrieveRelevantChunks env chunks query topK ≠ [] := by
  unfold vectorRetrieveRelevantChunks
  cases hembed : env.embed (chunks ++ [query]) with
  | error e => exact h
  | ok vectors =>
    dsimp only
    split
    · exact h
    · split
      · rename_i hsel
        exact List.ne_nil_of_length_pos hsel
      · exact h

/-- Indexing anywhere into a zero vector yields zero. -/
theorem getD_replicate_zero (n i : Nat) : (List.replicate n (0 : ℝ)).getD i 0 = 0 := by
  rcases lt_or_ge i n with h | h
  · rw [List.getD_eq_getElem _ _ (by simpa using h), List.getElem_replicate]
  · rw [List.getD_eq_default _ _ (by simpa using h)]

/-- The sum of squared entries of a non-zero vector is positive. -/
theorem sumsq_pos (a : List ℝ) (h : a ≠ List.replicate a.length 0) :
    0 < ∑ i ∈ Finset.range a.length, a.getD i 0 * a.getD i 0 := by
  have hex : ∃ j, ∃ hj : j < a.length, a[j] ≠ 0 := by
    by_contra hcon
    push_neg at hcon
    apply h
    rw [List.eq_replicate_iff]
    refine ⟨rfl, fun b hb => ?_⟩
    obtain ⟨j, hj, rfl⟩ := List.mem_iff_getElem.mp hb
    exact hcon j hj
  obtain ⟨j, hj, hne⟩ := hex
  apply Finset.sum_pos'
  · intro i _
    exact mul_self_nonneg _
  · refine ⟨j, Finset.mem_range.mpr hj, ?_⟩
    rw [List.getD_eq_getElem _ _ hj]
    exact mul_self_pos.mpr hne

/-- Bind on a successful `Except` computation. -/
theorem bind_ok_eq {α β : Type} (a : α) (f : α → Except Str β) :
    (Except.ok a >>= f) = f a := rfl

/-- Bind on a failed `Except` computation. -/
theorem bind_error_eq {α β : Type} (e : Str) (f : α → Except Str β) :
    ((Except.error e : Except Str α) >>= f) = Except.error e := rfl

/-- C1 (amended): `analyzeChunk` degrades a parse failure to the empty
clause list for that chunk, but a thrown model call is NOT absorbed:
`analyzeChunk` has no `try/catch`, so the error propagates unchanged (and
through `Promise.all`, aborts the whole analysis). -/
theorem analyzeChunk_tolerance (env : Env) (chunk role out e : Str) :
    (env.chat (extractorRequest chunk role) = Except.ok out →
      tryParseJson env.parseClauses out = none →
      analyzeChunk env chunk role = Except.ok []) ∧
    (env.chat (extractorRequest chunk role) = Except.error e →
      analyzeChunk env chunk role = Except.error e) := by
  constructor
  · intro hok hparse
    unfold analyzeChunk
    rw [hok, bind_ok_eq, hparse]
    rfl
  · intro herr
    unfold analyzeChunk
    rw [herr, bind_error_eq]

/-- C1 (counterexample): with a chat oracle that throws, `analyzeChunk`
returns the error, not the empty clause list the claim promises. -/
theorem analyzeChunk_throw_counterexample :
    analyzeChunk envChatErr (("x").data) (("tenant").data) =
      Except.error (("boom").data) ∧
    Except.error (("boom").data) ≠ (Except.ok [] : Except Str (List ClauseAnalysis)) :=
  ⟨rfl, fun h => Except.noConfusion h⟩

/-- C1 (witness): a parse failure yields `ok []`; a thrown chat call yields
the propagated error. -/
theorem analyzeChunk_tolerance_witness :
    analyzeChunk envParseNone (("x").data) (("tenant").data) = Except.ok [] ∧
    analyzeChunk envChatErr (("x").data) (("tenant").data) =
      Except.error (("boom").data) :=
  ⟨(analyzeChunk_tolerance envParseNone (("x").data) (("tenant").data) (("junk").data)
      (("e").data)).1 rfl rfl,
   (analyzeChunk_tolerance envChatErr (("x").data) (("tenant").data) (("o").data)
      (("boom").data)).2 rfl⟩

/-- C2: for every text and parameters with `O < S`, `chunkText` returns a
chunk list whose non-overlapping prefixes (each chunk's first `S - O`
characters, the final chunk in full) concatenate to exactly the original
text — no character lost or duplicated. -/
theorem chunkText_coverage (S O : Nat) (t : Str) (hOS : O < S) :
    (chunkText t (S : Int) (O : Int)).isSome = true ∧
    joinChunkPrefixes (S - O) ((chunkText t (S : Int) (O : Int)).getD []) = t := by
  unfold chunkText
  split
  · exact ⟨rfl, rfl⟩
  · rename_i hlen
    have h1 : S < t.length := by
      by_contra hcon
      exact hlen (by exact_mod_cast Nat.le_of_not_lt (fun hx => hcon (by omega)))
    obtain ⟨cs, hcs, hne, hjoin⟩ :=
      chunkLoop_coverage t S O hOS (t.length + 2) 0 (by omega) (by omega)
    have hcs2 : chunkLoop t (S : Int) (O : Int) 0 (t.length + 2) = some cs := by
      exact_mod_cast hcs
    rw [hcs2]
    refine ⟨rfl, ?_⟩
    simpa using hjoin

/-- C2 (witness): the ten-character sample text with size 4 and overlap 1
is reconstructed from its chunk prefixes. -/
theorem chunkText_coverage_witness :
    (chunkText sampleText10 4 1).isSome = true ∧
    joinChunkPrefixes (4 - 1) ((chunkText sampleText10 4 1).getD []) = sampleText10 := by
  exact_mod_cast chunkText_coverage 4 1 sampleText10 (by norm_num)

/-- C3: `chunkText` terminates for every text whenever `overlap < size`
(the fixed fuel suffices), and when a caller supplies `overlap ≥ size` on a
text longer than `size`, the loop does not advance and no amount of fuel
makes it terminate — there is no guard rejecting such a configuration, and
`chunkText` itself yields no result. -/
theorem chunkText_termination_dichotomy (S O : Nat) (t : Str) (fuel : Nat) :
    (O < S → (chunkText t (S : Int) (O : Int)).isSome = true) ∧
    (S ≤ O → S < t.length →
      chunkLoop t (S : Int) (O : Int) 0 fuel = none ∧
      chunkText t (S : Int) (O : Int) = none) := by
  constructor
  · intro h
    exact chunkText_isSome_of_lt t S O (by exact_mod_cast h)
  · intro hSO hlen
    have h1 : ∀ f (i : Int), i ≤ 0 → chunkLoop t (S : Int) (O : Int) i f = none :=
      chunkLoop_none_of_nonpos t S O (by exact_mod_cast hSO) (by omega)
    refine ⟨h1 fuel 0 le_rfl, ?_⟩
    unfold chunkText
    rw [if_neg (by omega), h1 _ 0 le_rfl]

/-- C3 (witness): termination at size 2 / overlap 1, and divergence (at
fuel 5 and at `chunkText`'s own fuel) at size 1 / overlap 1 on a
two-character text. -/
theorem chunkText_termination_witness :
    (chunkText (("abc").data) 2 1).isSome = true ∧
    chunkLoop (("ab").data) 1 1 0 5 = none ∧
    chunkText (("ab").data) 1 1 = none := by
  refine ⟨?_, ?_, ?_⟩
  · exact_mod_cast (chunkText_termination_dichotomy 2 1 (("abc").data) 5).1 (by norm_num)
  · exact_mod_cast
      ((chunkText_termination_dichotomy 1 1 (("ab").data) 5).2 le_rfl (by decide)).1
  · exact_mod_cast
      ((chunkText_termination_dichotomy 1 1 (("ab").data) 5).2 le_rfl (by decide)).2

/-- C4 (counterexample): for an empty `documentText` and a non-empty
scenario, `simulateImpact` does NOT return the explanatory
could-not-find-information message: `chunkText` returns `[""]` for the
empty text, so retrieval yields a chunk and the Answerer (chat model) is
invoked — here its answer is what is returned. -/
theorem simulateImpact_empty_doc_counterexample :
    simulateImpact envAnswer [] (("x").data) = Except.ok (("A").data) ∧
    Except.ok (("A").data) ≠ (Except.ok noInfoMsg : Except Str Str) := by
  refine ⟨rfl, fun h => ?_⟩
  injection h with h2
  exact absurd h2 (by decide)

/-- C4 (amended): the zero-chunk guard in `simulateImpact` is unreachable.
For every environment, document (including the empty one) and non-empty
scenario, retrieval yields at least one chunk and `simulateImpact` is
exactly the Answerer chat call on the retrieved context — never the
explanatory fallback message. -/
theorem simulateImpact_always_answers (env : Env) (doc scenario : Str)
    (h : trimJS scenario ≠ []) :
    simulateImpact env doc scenario =
      env.chat (answererRequest scenario (List.intercalate contextSeparator
        (vectorRetrieveRelevantChunks env ((chunkText doc 1500 200).getD [])
          scenario 6))) := by
  unfold simulateImpact
  rw [if_neg h]
  have hsome : (chunkText doc 1500 200).isSome = true :=
    chunkText_isSome_of_lt doc 1500 200 (by norm_num)
  cases hct : chunkText doc 1500 200 with
  | none => rw [hct] at hsome; simp at hsome
  | some chunks =>
    dsimp only
    have hne : vectorRetrieveRelevantChunks env chunks scenario 6 ≠ [] :=
      vectorRetrieve_ne_nil env chunks scenario 6
        (chunkText_ne_nil doc 1500 200 (by norm_num) chunks hct)
    rw [if_neg (by simpa [List.length_eq_zero] using hne)]
    rfl

/-- C4 (witness): on the empty document and scenario `"x"`, the amended
statement instantiates to the Answerer call. -/
theorem simulateImpact_always_answers_witness :
    simulateImpact envAnswer [] (("x").data) =
      envAnswer.chat (answererRequest (("x").data) (List.intercalate contextSeparator
        (vectorRetrieveRelevantChunks envAnswer ((chunkText [] 1500 200).getD [])
          (("x").data) 6))) :=
  simulateImpact_always_answers envAnswer [] (("x").data) (by decide)

/-- C5 (counterexample): with text length 10, size 4, overlap 3 (so
`O < S < len`), the produced chunks include non-final chunks shorter than
the size ("hij", "ij") and consecutive pairs overlapping by fewer than 3
characters, refuting the claim as stated. -/
theorem chunk_overlap_counterexample :
    chunkText sampleText10 4 3 = some
      [("abcd").data, ("bcde").data, ("cdef").data, ("defg").data, ("efgh").data,
       ("fghi").data, ("ghij").data, ("hij").data, ("ij").data, ("j").data] ∧
    ¬ (OnlyLastShorter 4
        [("abcd").data, ("bcde").data, ("cdef").data, ("defg").data, ("efgh").data,
         ("fghi").data, ("ghij").data, ("hij").data, ("ij").data, ("j").data] ∧
      OverlapsExactly 3
        [("abcd").data, ("bcde").data, ("cdef").data, ("defg").data, ("efgh").data,
         ("fghi").data, ("ghij").data, ("hij").data, ("ij").data, ("j").data]) := by
  constructor
  · decide
  · decide

/-- C5 (amended): for `O < S`, consecutive chunks agree on their shared
region — the latter's first `O` characters equal the former minus its first
`S - O` characters — and that region has length exactly `O` whenever the
former chunk has full length `S`; every chunk has length at most `S`, but
near the end of the text chunks other than the last may also fall short of
`S` (and then the shared region is shorter than `O`). -/
theorem chunk_overlap_region (S O : Nat) (t : Str) (cs : List Str) (hOS : O < S)
    (hcs : chunkText t (S : Int) (O : Int) = some cs) :
    OverlapRegionAgrees S O cs ∧ ChunkLengthsLe S cs := by
  unfold chunkText at hcs
  by_cases h : (t.length : Int) ≤ S
  · rw [if_pos h] at hcs
    cases hcs
    refine ⟨List.chain'_singleton _, ?_⟩
    intro c hcmem
    rw [List.mem_singleton] at hcmem
    subst hcmem
    exact_mod_cast h
  · rw [if_neg h] at hcs
    obtain ⟨cs2, hcs2, hhead, hlens, hchain⟩ :=
      chunkLoop_chain t S O hOS (t.length + 2) 0 (by omega) (by omega)
    have hcs3 : chunkLoop t (S : Int) (O : Int) 0 (t.length + 2) = some cs2 := by
      exact_mod_cast hcs2
    rw [hcs3] at hcs
    cases hcs
    exact ⟨hchain, hlens⟩

/-- C5 (witness): the amended statement at text length 10, size 4,
overlap 1. -/
theorem chunk_overlap_region_witness :
    OverlapRegionAgrees 4 1 [("abcd").data, ("defg").data, ("ghij").data, ("j").data] ∧
    ChunkLengthsLe 4 [("abcd").data, ("defg").data, ("ghij").data, ("j").data] :=
  chunk_overlap_region 4 1 sampleText10 _ (by norm_num) (by decide)

/-- C6: `cosineSimilarity` is the dot product over the floored-denominator
product of Euclidean norms: a zero-vector input (on either side) gives 0
rather than a division by zero, and for equal-length non-zero vectors the
value lies in `[-1, 1]` (Cauchy-Schwarz). -/
theorem cosineSimilarity_bounds (a b : List ℝ) (hlen : a.length = b.length) :
    (a = List.replicate a.length 0 → cosineSimilarity a b = 0) ∧
    (b = List.replicate b.length 0 → cosineSimilarity a b = 0) ∧
    (a ≠ List.replicate a.length 0 → b ≠ List.replicate b.length 0 →
      -1 ≤ cosineSimilarity a b ∧ cosineSimilarity a b ≤ 1) := by
  refine ⟨?_, ?_, ?_⟩
  · intro ha
    have hdot : ∑ i ∈ Finset.range a.length, a.getD i 0 * b.getD i 0 = 0 := by
      apply Finset.sum_eq_zero
      intro i _
      have h0 : a.getD i 0 = 0 := by rw [ha]; exact getD_replicate_zero _ _
      rw [h0, zero_mul]
    simp only [cosineSimilarity]
    rw [hdot, zero_div]
  · intro hb
    have hdot : ∑ i ∈ Finset.range a.length, a.getD i 0 * b.getD i 0 = 0 := by
      apply Finset.sum_eq_zero
      intro i _
      have h0 : b.getD i 0 = 0 := by rw [hb]; exact getD_replicate_zero _ _
      rw [h0, mul_zero]
    simp only [cosineSimilarity]
    rw [hdot, zero_div]
  · intro ha hb
    have hna := sumsq_pos a ha
    have hnb : 0 < ∑ i ∈ Finset.range a.length, b.getD i 0 * b.getD i 0 := by
      rw [hlen]; exact sumsq_pos b hb
    have hcs : (∑ i ∈ Finset.range a.length, a.getD i 0 * b.getD i 0) ^ 2 ≤
        (∑ i ∈ Finset.range a.length, a.getD i 0 * a.getD i 0) *
          (∑ i ∈ Finset.range a.length, b.getD i 0 * b.getD i 0) := by
      have h := Finset.sum_mul_sq_le_sq_mul_sq (Finset.range a.length)
        (fun i => a.getD i 0) (fun i => b.getD i 0)
      simpa only [← pow_two] using h
    have habs : |∑ i ∈ Finset.range a.length, a.getD i 0 * b.getD i 0| ≤
        Real.sqrt (∑ i ∈ Finset.range a.length, a.getD i 0 * a.getD i 0) *
          Real.sqrt (∑ i ∈ Finset.range a.length, b.getD i 0 * b.getD i 0) := by
      have h1 := Real.abs_le_sqrt hcs
      rwa [Real.sqrt_mul hna.le] at h1
    have hdpos : 0 <
        Real.sqrt (∑ i ∈ Finset.range a.length, a.getD i 0 * a.getD i 0) *
          Real.sqrt (∑ i ∈ Finset.range a.length, b.getD i 0 * b.getD i 0) :=
      mul_pos (Real.sqrt_pos.mpr hna) (Real.sqrt_pos.mpr hnb)
    simp only [cosineSimilarity]
    rw [if_neg (ne_of_gt hdpos), ← abs_le, abs_div, abs_of_pos hdpos, div_le_one hdpos]
    exact habs

/-- C6 (witness): the zero vector `[0, 0]` against `[3, 4]` gives 0, and
`[1, 0]` against `[0, 1]` is within `[-1, 1]`. -/
theorem cosineSimilarity_bounds_witness :
    cosineSimilarity [(0 : ℝ), 0] [(3 : ℝ), 4] = 0 ∧
    (-1 ≤ cosineSimilarity [(1 : ℝ), 0] [(0 : ℝ), 1] ∧
      cosineSimilarity [(1 : ℝ), 0] [(0 : ℝ), 1] ≤ 1) := by
  constructor
  · exact (cosineSimilarity_bounds [0, 0] [3, 4] rfl).1 rfl
  · exact (cosineSimilarity_bounds [1, 0] [0, 1] rfl).2.2 (by simp) (by simp)

/-- C7: `vectorRetrieveRelevantChunks` embeds the chunks and the query in
one batched call on `chunks ++ [query]`, and whenever that call throws or
returns a vector count different from the input count
(`chunks.length + 1`), it returns the original chunk list unchanged; it
never throws. -/
theorem vectorRetrieve_fallback (env : Env) (chunks : List Str) (query : Str)
    (topK : Nat)
    (h : ∀ vs, env.embed (chunks ++ [query]) = Except.ok vs →
      vs.length ≠ chunks.length + 1) :
    vectorRetrieveRelevantChunks env chunks query topK = chunks := by
  unfold vectorRetrieveRelevantChunks
  cases hembed : env.embed (chunks ++ [query]) with
  | error e => rfl
  | ok vectors =>
    dsimp only
    have hlen : (chunks ++ [query]).length = chunks.length + 1 := by simp
    rw [if_pos (by rw [hlen]; exact h vectors hembed)]

/-- C7 (witness): a thrown embedding call and a count-mismatched embedding
call both fall back to the original chunk list. -/
theorem vectorRetrieve_fallback_witness :
    vectorRetrieveRelevantChunks envChatErr [("a").data] (("q").data) 6 = [("a").data] ∧
    vectorRetrieveRelevantChunks envEmbedMismatch [("a").data] (("q").data) 6 =
      [("a").data] := by
  constructor
  · exact vectorRetrieve_fallback envChatErr _ _ _
      (fun vs hvs => Except.noConfusion hvs)
  · refine vectorRetrieve_fallback envEmbedMismatch _ _ _ (fun vs hvs => ?_)
    injection hvs with h2
    subst h2
    decide

/-- C8: whatever `AnalysisResponse` a successful `analyzeContract` returns,
its `clauses` field is exactly the concatenation, in original chunk order,
of the per-chunk extraction results (`List.mapM` gathers positionally, as
`Promise.all` does), and merging in the Synthesizer's output does not alter
it. -/
theorem analyzeContract_order_preservation (env : Env) (text role : Str)
    (resp : AnalysisResponse) (chunks : List Str)
    (results : List (List ClauseAnalysis))
    (hc : chunkText text 4000 400 = some chunks)
    (hr : chunks.mapM (fun chunk => analyzeChunk env chunk role) = Except.ok results)
    (ha : analyzeContract env text role = Except.ok resp) :
    resp.clauses = results.flatten := by
  unfold analyzeContract at ha
  rw [hc] at ha
  dsimp only at ha
  rw [hr, bind_ok_eq] at ha
  by_cases hz : results.flatten.length = 0
  · rw [if_pos hz] at ha
    cases ha
  · rw [if_neg hz] at ha
    cases hs : synthesizeReport env results.flatten role with
    | error e => rw [hs, bind_error_eq] at ha; cases ha
    | ok rep =>
      rw [hs, bind_ok_eq] at ha
      cases ha
      rfl

/-- C8 (witness): a one-chunk document through the happy-path environment
yields a response whose clauses are the flattened per-chunk results. -/
theorem analyzeContract_order_witness :
    (AnalysisResponse.mk (("s").data) [sampleClause] [] [] []).clauses =
      [[sampleClause]].flatten :=
  analyzeContract_order_preservation envHappy (("t").data) (("tenant").data)
    (AnalysisResponse.mk (("s").data) [sampleClause] [] [] [])
    [("t").data] [[sampleClause]] rfl rfl rfl

/-- C9: if `len(text) ≤ size` then `chunkText` returns `[text]` — so a
3000-character document is analyzed as exactly one chunk, with the
Extractor mapped over that single chunk — and a 9000-character document
with size 4000 / overlap 400 produces exactly 3 chunks at offsets 0, 3600
and 7200, with the Extractor mapped over exactly those three chunks (one
`analyzeChunk` call per chunk, sequenced positionally). -/
theorem chunkText_shortcut_offsets (S O : Nat) (t u : Str) (env : Env) (role : Str)
    (h1 : t.length ≤ S) (h9 : u.length = 9000) :
    chunkText t (S : Int) (O : Int) = some [t] ∧
    chunkText u 4000 400 = some [u.take 4000, (u.take 7600).drop 3600, u.drop 7200] ∧
    List.mapM (fun chunk => analyzeChunk env chunk role) [t] =
      (do
        let r ← analyzeChunk env t role
        pure [r]) ∧
    List.mapM (fun chunk => analyzeChunk env chunk role)
        [u.take 4000, (u.take 7600).drop 3600, u.drop 7200] =
      (do
        let r1 ← analyzeChunk env (u.take 4000) role
        let r2 ← analyzeChunk env ((u.take 7600).drop 3600) role
        let r3 ← analyzeChunk env (u.drop 7200) role
        pure [r1, r2, r3]) := by
  refine ⟨?_, chunkText_9000 u h9, ?_, ?_⟩
  · unfold chunkText
    rw [if_pos (by exact_mod_cast h1)]
  · simp only [List.mapM_cons, List.mapM_nil, pure_bind]
  · simp only [List.mapM_cons, List.mapM_nil, pure_bind, bind_assoc]

/-- C9 (witness): the shortcut and the three offsets at 3000- and
9000-character documents. -/
theorem chunkText_shortcut_offsets_witness :
    chunkText (List.replicate 3000 'a') 4000 400 = some [List.replicate 3000 'a'] ∧
    chunkText (List.replicate 9000 'a') 4000 400 =
      some [(List.replicate 9000 'a').take 4000,
        ((List.replicate 9000 'a').take 7600).drop 3600,
        (List.replicate 9000 'a').drop 7200] ∧
    List.mapM (fun chunk => analyzeChunk envChatErr chunk (("r").data))
        [List.replicate 3000 'a'] =
      (do
        let r ← analyzeChunk envChatErr (List.replicate 3000 'a') (("r").data)
        pure [r]) ∧
    List.mapM (fun chunk => analyzeChunk envChatErr chunk (("r").data))
        [(List.replicate 9000 'a').take 4000,
          ((List.replicate 9000 'a').take 7600).drop 3600,
          (List.replicate 9000 'a').drop 7200] =
      (do
        let r1 ← analyzeChunk envChatErr ((List.replicate 9000 'a').take 4000) (("r").data)
        let r2 ← analyzeChunk envChatErr
          (((List.replicate 9000 'a').take 7600).drop 3600) (("r").data)
        let r3 ← analyzeChunk envChatErr ((List.replicate 9000 'a').drop 7200) (("r").data)
        pure [r1, r2, r3]) := by
  exact_mod_cast chunkText_shortcut_offsets 4000 400 (List.replicate 3000 'a')
    (List.replicate 9000 'a') envChatErr (("r").data)
    (by rw [List.length_replicate]; norm_num) (List.length_replicate 9000 'a')

/-- C10: `tryParseJson` is total — for every parser and every input string
it returns exactly the parser's result on the cleaned text (trimmed,
leading triple-backtick/`json` fence and trailing fence stripped, trimmed
again), and when that result is `none` (malformed output), it returns
`none` rather than throwing. -/
theorem tryParseJson_total {T : Type} (parse : Str → Option T) (text : Str) :
    tryParseJson parse text =
      parse (trimJS (stripTrailingFence (stripLeadingFence (trimJS text)))) ∧
    (parse (trimJS (stripTrailingFence (stripLeadingFence (trimJS text)))) = none →
      tryParseJson parse text = none) :=
  ⟨rfl, fun h => h⟩

/-- C10 (witness): with an all-rejecting parser, `tryParseJson` yields
`none`. -/
theorem tryParseJson_total_witness :
    tryParseJson parseNone (("x").data) = none :=
  (tryParseJson_total parseNone (("x").data)).2 rfl

end UnBind
